import Mathlib

/-!
Shallow embedding of the Cloudinary-to-R2 migration scripts
(`scripts/migrate-to-r2.js`, `scripts/utils/db-helper.js` DBHelper,
`scripts/utils/backup-helper.js` BackupHelper, `scripts/utils/r2-uploader.js`
R2Uploader, `scripts/restore-from-backup.js`).

External effects (HTTP probes, S3 calls, database statements) are modelled by
per-record oracles recording whether each call succeeds; every definition
mirrors the control flow of the corresponding JavaScript function.  Timestamps
and log output are elided.  The migration state file is modelled as an
`Option MigState` (the JSON document, or no file).  `p-limit` concurrency:
each record's state-update-and-save block is synchronous JavaScript (no `await`
inside), so a run is a fold over the records in completion order; we fold over
the filtered list (the claims proved here are insensitive to the permutation).
-/

namespace R2Mig

/-- One row of the `files` table (`SELECT * FROM files WHERE provider = 'cloudinary'`). -/
structure FileRec where
  id : Nat
  name : String
  hash : String
  ext : String
  mime : String
  size : Nat
  url : String
deriving DecidableEq, Repr

/-- Configuration held by `R2Uploader` (constructor of `r2-uploader.js`). -/
structure R2Config where
  accessKeyId : String
  secretAccessKey : String
  region : String
  bucket : String
  endpoint : String
  publicUrl : Option String
deriving DecidableEq, Repr

/-- The environment variables consumed by `R2Uploader.fromEnv`. -/
structure EnvVars where
  awsAccessKeyId : String
  awsAccessSecret : String
  awsRegion : Option String
  awsBucket : String
  awsEndpoint : String
  r2PublicUrl : Option String
deriving DecidableEq, Repr

/-- `R2Uploader.fromEnv`: builds the uploader configuration.  It performs no
validation of the endpoint (compare `extractAccountId`, which is only invoked
lazily from `getPublicUrl`). -/
def fromEnv (e : EnvVars) : R2Config :=
  { accessKeyId := e.awsAccessKeyId
    secretAccessKey := e.awsAccessSecret
    region := e.awsRegion.getD "auto"
    bucket := e.awsBucket
    endpoint := e.awsEndpoint
    publicUrl := e.r2PublicUrl }

/-- The characters of the literal `"https://"` in the regex of `extractAccountId`. -/
def httpsLit : List Char := "https://".data

/-- The characters of the literal `".r2.cloudflarestorage.com"` following the
captured group in the regex of `extractAccountId`. -/
def r2HostLit : List Char := ".r2.cloudflarestorage.com".data

/-- The unanchored regex search
`endpoint.match(/https:\/\/([^.]+)\.r2\.cloudflarestorage\.com/)` of
`R2Uploader.extractAccountId`: at each start position, try to match
`https://`, then a nonempty run of non-dot characters (the capture), then the
literal host suffix; on failure advance one character. -/
def accountIdScan : List Char → Option (List Char)
  | [] => none
  | c :: cs =>
    if httpsLit.isPrefixOf (c :: cs) then
      let rest := (c :: cs).drop 8
      let acc := rest.takeWhile (fun ch => !(ch == '.'))
      let tail := rest.dropWhile (fun ch => !(ch == '.'))
      if !acc.isEmpty && r2HostLit.isPrefixOf tail then some acc
      else accountIdScan cs
    else accountIdScan cs

/-- `R2Uploader.extractAccountId`: returns the captured account id, or throws
`Invalid R2 endpoint format`. -/
def extractAccountId (endpoint : String) : Except String String :=
  match accountIdScan endpoint.data with
  | some a => .ok (String.mk a)
  | none => .error "Invalid R2 endpoint format"

/-- `R2Uploader.getPublicUrl`: custom public domain if configured, else the
canonical R2 URL derived via `extractAccountId` (which may throw). -/
def getPublicUrl (cfg : R2Config) (key : String) : Except String String :=
  match cfg.publicUrl with
  | some p => .ok (p ++ "/" ++ key)
  | none =>
    match accountIdScan cfg.endpoint.data with
    | some a =>
      .ok ("https://" ++ cfg.bucket ++ "." ++ String.mk a ++ ".r2.cloudflarestorage.com/" ++ key)
    | none => .error "Invalid R2 endpoint format"

/-- Result of the `axios.head(file.url, ...)` source-reachability probe:
success, an error whose `response.status` is 404, or any other failure
(timeout, network error, non-404 HTTP status). -/
inductive HeadRes where
  | ok
  | err404
  | errOther
deriving DecidableEq, Repr

/-- Oracle describing how the external world answers the calls made while
migrating one record. -/
structure RecEnv where
  /-- outcome of the `axios.head` probe of the Cloudinary URL -/
  head : HeadRes
  /-- outcome of `uploader.fileExists(key)` (`.error` = the S3 probe threw) -/
  existsRes : Except String Bool
  /-- whether the i-th `axios.get` download attempt succeeds -/
  dlOk : Nat → Bool
  /-- whether the S3 put/multipart transfer succeeds -/
  uploadOk : Bool
  /-- whether `db.updateFileToR2` succeeds -/
  updateOk : Bool
  /-- whether `db.beginTransaction()` succeeds -/
  beginOk : Bool
  /-- whether `db.commit()` succeeds -/
  commitOk : Bool

/-- The options object of each `axios.get` download attempt. -/
structure AxiosGetCfg where
  timeout : Nat
  maxContentLength : Nat
deriving DecidableEq, Repr

/-- The literal options passed by `downloadFromCloudinary`:
60 s timeout, 100 MiB `maxContentLength`. -/
def axiosGetConfig : AxiosGetCfg := { timeout := 60000, maxContentLength := 100 * 1024 * 1024 }

/-- The message of the error thrown when all download attempts are exhausted
(source: `Download failed after ${retries} retries: ${error.message}`; the
underlying transport message is elided by the model). -/
def downloadFailureMsg (retries : Nat) : String :=
  "Download failed after " ++ toString retries ++ " retries"

/-- Result of `downloadFromCloudinary`: whether a buffer was returned, the
thrown error if not, one entry per `axios.get` attempt made (its options
object), and the backoff sleeps performed between attempts. -/
structure DlOut where
  ok : Bool
  err : Option String
  attempts : List AxiosGetCfg
  delays : List Nat
deriving DecidableEq, Repr

/-- The loop `for (let i = 0; i < retries; i++)` of `downloadFromCloudinary`.
The last argument is fuel, kept equal to `retries - i`; the fuel-0 case is the
fall-through `return undefined` of the JS loop, unreachable when the fuel
invariant holds.  On a failed attempt `i` that is not the last, the code
sleeps `1000 * (i + 1)` ms and retries. -/
def dlLoop (dlOk : Nat → Bool) (retries : Nat) (i : Nat) : Nat → DlOut
  | 0 => { ok := false, err := none, attempts := [], delays := [] }
  | fuel + 1 =>
    if dlOk i then { ok := true, err := none, attempts := [axiosGetConfig], delays := [] }
    else if i == retries - 1 then
      { ok := false, err := some (downloadFailureMsg retries)
        attempts := [axiosGetConfig], delays := [] }
    else
      let rest := dlLoop dlOk retries (i + 1) fuel
      { rest with attempts := axiosGetConfig :: rest.attempts
                  delays := 1000 * (i + 1) :: rest.delays }

/-- `downloadFromCloudinary(url, retries = 3)`. -/
def downloadFromCloudinary (dlOk : Nat → Bool) (retries : Nat) : DlOut :=
  dlLoop dlOk retries 0 retries

/-- Per-record outcome recorded in the migration state. -/
inductive Outcome where
  | success
  | failed
  | skipped
deriving DecidableEq, Repr

/-- The value returned by `migrateFile` (fields not used by the caller's
control flow, such as durations and stack traces, are elided). -/
structure MigResult where
  status : Outcome
  newUrl : Option String
  reason : Option String
  error : Option String
deriving DecidableEq, Repr

/-- Trace of the externally visible calls made by `migrateFile`. -/
structure MigTrace where
  uploadCalls : Nat
  dbUpdateCalls : Nat
  getAttempts : List AxiosGetCfg
  delays : List Nat
deriving DecidableEq, Repr

def emptyMigTrace : MigTrace :=
  { uploadCalls := 0, dbUpdateCalls := 0, getAttempts := [], delays := [] }

/-- `uploader.upload({buffer, key, contentType})`: performs the transfer and
returns `getPublicUrl(key)`; any error inside is rethrown as
`Failed to upload to R2: ...`. -/
def uploadR2 (env : RecEnv) (cfg : R2Config) (key : String) : Except String String :=
  if env.uploadOk then
    match getPublicUrl cfg key with
    | .ok u => .ok u
    | .error e => .error ("Failed to upload to R2: " ++ e)
  else .error "Failed to upload to R2: transport error"

/-- Tail of `migrateFile`: `if (!dryRun) await db.updateFileToR2(file.id, r2Url)`
then return the success record; a throwing update is caught by the enclosing
`try` and becomes a `failed` result. -/
def finishUpdate (env : RecEnv) (dryRun : Bool) (r2Url : String) (tr : MigTrace) :
    MigResult × MigTrace :=
  if !dryRun then
    if env.updateOk then
      ({ status := .success, newUrl := some r2Url, reason := none, error := none },
       { tr with dbUpdateCalls := tr.dbUpdateCalls + 1 })
    else
      ({ status := .failed, newUrl := none, reason := none, error := some "update failed" },
       { tr with dbUpdateCalls := tr.dbUpdateCalls + 1 })
  else
    ({ status := .success, newUrl := some r2Url, reason := none, error := none }, tr)

/-- `migrateFile(file, uploader, db, dryRun)`.  The `axios.head` probe's
non-404 failures are swallowed by the inner `catch` (only a 404 returns the
`skipped` result); all other thrown errors are converted by the outer `catch`
into a `failed` result.  This function never throws. -/
def migrateFile (env : RecEnv) (f : FileRec) (cfg : R2Config) (dryRun : Bool) :
    MigResult × MigTrace :=
  match env.head with
  | .err404 =>
    ({ status := .skipped, newUrl := none
       reason := some "File not found on Cloudinary (404)", error := none }, emptyMigTrace)
  | _ =>
    let key := f.hash ++ f.ext
    match env.existsRes with
    | .error e =>
      ({ status := .failed, newUrl := none, reason := none, error := some e }, emptyMigTrace)
    | .ok exs =>
      if !dryRun && !exs then
        let dl := downloadFromCloudinary env.dlOk 3
        let tr0 : MigTrace :=
          { uploadCalls := 0, dbUpdateCalls := 0, getAttempts := dl.attempts, delays := dl.delays }
        if dl.ok then
          match uploadR2 env cfg key with
          | .error e =>
            ({ status := .failed, newUrl := none, reason := none, error := some e },
             { tr0 with uploadCalls := 1 })
          | .ok r2Url => finishUpdate env dryRun r2Url { tr0 with uploadCalls := 1 }
        else
          ({ status := .failed, newUrl := none, reason := none, error := dl.err }, tr0)
      else if exs then
        match getPublicUrl cfg key with
        | .error e =>
          ({ status := .failed, newUrl := none, reason := none, error := some e }, emptyMigTrace)
        | .ok r2Url => finishUpdate env dryRun r2Url emptyMigTrace
      else
        match getPublicUrl cfg key with
        | .error e =>
          ({ status := .failed, newUrl := none, reason := none, error := some e }, emptyMigTrace)
        | .ok u => finishUpdate env dryRun ("[DRY-RUN] " ++ u) emptyMigTrace

/-- Trace of one worker's `limit(async () => ...)` body in `main`. -/
structure ProcTrace where
  beganCalled : Bool
  commitCalled : Bool
  rollbackCalled : Bool
  mig : MigTrace
deriving DecidableEq, Repr

/-- The per-record worker body of `main`: `beginTransaction` / `migrateFile` /
`commit` inside a `try`, with the `catch` rolling back and recording a
`failed` entry.  `migrateFile` never throws, so the `catch` (and hence
`rollback`) is reachable only when `beginTransaction` or `commit` throws.
Returns the outcome recorded into the state together with the call trace. -/
def processRecord (env : RecEnv) (f : FileRec) (cfg : R2Config) (dryRun : Bool) :
    MigResult × ProcTrace :=
  if dryRun then
    let pr := migrateFile env f cfg true
    (pr.1, { beganCalled := false, commitCalled := false, rollbackCalled := false, mig := pr.2 })
  else if env.beginOk then
    let pr := migrateFile env f cfg false
    if env.commitOk then
      (pr.1, { beganCalled := true, commitCalled := true, rollbackCalled := false, mig := pr.2 })
    else
      ({ status := .failed, newUrl := none, reason := none, error := some "commit failed" },
       { beganCalled := true, commitCalled := true, rollbackCalled := true, mig := pr.2 })
  else
    ({ status := .failed, newUrl := none, reason := none
       error := some "begin transaction failed" },
     { beganCalled := true, commitCalled := false, rollbackCalled := true, mig := emptyMigTrace })

/-- The `statistics` object of `migration-state.json`. -/
structure Stats where
  total_files : Nat
  processed : Nat
  success : Nat
  failed : Nat
  skipped : Nat
deriving DecidableEq, Repr

/-- The migration state document (`loadState` / `saveState`).  Time-valued
fields (`migration_id`, `start_time`, `end_time`) are elided; the outcome
collections are kept as the lists of record ids pushed into them. -/
structure MigState where
  status : String
  statistics : Stats
  processed_files : List Nat
  failed_files : List Nat
  skipped_files : List Nat
deriving DecidableEq, Repr

/-- The fresh state built by `loadState` when the state file does not exist. -/
def freshState : MigState :=
  { status := "in_progress"
    statistics := { total_files := 0, processed := 0, success := 0, failed := 0, skipped := 0 }
    processed_files := [], failed_files := [], skipped_files := [] }

/-- The `if (result.status === ...)` ladder of `main` (and the `catch` block's
failed push): increments one accumulated counter and appends the record id to
the matching collection. -/
def applyOutcome (s : MigState) (id : Nat) : Outcome → MigState
  | .success =>
    { s with statistics := { s.statistics with success := s.statistics.success + 1 }
             processed_files := s.processed_files ++ [id] }
  | .failed =>
    { s with statistics := { s.statistics with failed := s.statistics.failed + 1 }
             failed_files := s.failed_files ++ [id] }
  | .skipped =>
    { s with statistics := { s.statistics with skipped := s.statistics.skipped + 1 }
             skipped_files := s.skipped_files ++ [id] }

/-- Input of one `main` invocation of `migrate-to-r2.js`: the flags, the rows
returned by `db.getCloudinaryFiles()`, the state file content (none = file
absent), the per-record oracle, and the uploader configuration. -/
structure RunInput where
  dryRun : Bool
  allFiles : List FileRec
  fileContent : Option MigState
  env : FileRec → RecEnv
  cfg : R2Config

/-- `loadState()`. -/
def loadStateOf (inp : RunInput) : MigState := inp.fileContent.getD freshState

/-- `allFiles.filter((f) => !processedIds.includes(f.id))`. -/
def outstanding (inp : RunInput) : List FileRec :=
  inp.allFiles.filter (fun f => !((loadStateOf inp).processed_files.contains f.id))

/-- Accumulator of the worker-pool loop: the in-memory state, the per-run
`processed` counter (`let processed = 0`), effect counters, the number of
`saveState` calls, and the last state written to the file. -/
structure RunAcc where
  st : MigState
  processedCount : Nat
  uploads : Nat
  dbUpdates : Nat
  saves : Nat
  lastSaved : Option MigState

/-- One record's completion: record the outcome, set
`state.statistics.processed = processed` from the per-run counter, and
`saveState(state)`. -/
def stepRecord (inp : RunInput) (acc : RunAcc) (f : FileRec) : RunAcc :=
  let pr := processRecord (inp.env f) f inp.cfg inp.dryRun
  let s1 := applyOutcome acc.st f.id pr.1.status
  let n := acc.processedCount + 1
  let s2 := { s1 with statistics := { s1.statistics with processed := n } }
  { st := s2, processedCount := n
    uploads := acc.uploads + pr.2.mig.uploadCalls
    dbUpdates := acc.dbUpdates + pr.2.mig.dbUpdateCalls
    saves := acc.saves + 1
    lastSaved := some s2 }

/-- Result of one `main` invocation: the final in-memory state, the state-file
content after the run (unchanged if `saveState` was never called), the number
of upload / database-rewrite / save calls, and the process exit code. -/
structure RunOut where
  memState : MigState
  stateFileAfter : Option MigState
  uploads : Nat
  dbUpdates : Nat
  saves : Nat
  exitCode : Nat
deriving Repr

/-- The loaded state with `state.statistics.total_files = allFiles.length`
applied, together with the zeroed per-run counters, before the worker pool
starts. -/
def initialAcc (inp : RunInput) : RunAcc :=
  { st := { loadStateOf inp with
              statistics := { (loadStateOf inp).statistics with
                                total_files := inp.allFiles.length } }
    processedCount := 0, uploads := 0, dbUpdates := 0, saves := 0, lastSaved := none }

/-- The accumulator after all outstanding records have completed. -/
def finalAcc (inp : RunInput) : RunAcc :=
  (outstanding inp).foldl (stepRecord inp) (initialAcc inp)

/-- The state written by the final `saveState` of a run that processed at
least one record: `state.status = failed > 0 ? 'completed_with_errors'
: 'completed'`. -/
def finalStateOf (inp : RunInput) : MigState :=
  { (finalAcc inp).st with
      status := if 0 < (finalAcc inp).st.statistics.failed
                then "completed_with_errors" else "completed" }

/-- `main()` of `migrate-to-r2.js` (database/uploader construction succeed;
fatal startup failures are outside this model).  With zero outstanding records
it logs and returns without writing the state file.  Otherwise it processes
every outstanding record, then sets `end_time` and the final status
(`completed_with_errors` iff the accumulated failed counter is positive) and
saves once more.  The run exits 0. -/
def runMain (inp : RunInput) : RunOut :=
  if (outstanding inp).isEmpty then
    { memState := (initialAcc inp).st, stateFileAfter := inp.fileContent
      uploads := 0, dbUpdates := 0, saves := 0, exitCode := 0 }
  else
    { memState := finalStateOf inp, stateFileAfter := some (finalStateOf inp)
      uploads := (finalAcc inp).uploads, dbUpdates := (finalAcc inp).dbUpdates
      saves := (finalAcc inp).saves + 1, exitCode := 0 }

/-! ## Backup helper (`scripts/utils/backup-helper.js`) and restore script -/

/-- A flat file system: path/content pairs, later writes overriding earlier
ones via `write`. -/
structure FS where
  files : List (String × String)
deriving DecidableEq, Repr

def FS.read (fs : FS) (p : String) : Option String :=
  (fs.files.find? (fun e => e.1 == p)).map (fun e => e.2)

def FS.existsFile (fs : FS) (p : String) : Bool :=
  fs.files.any (fun e => e.1 == p)

def FS.write (fs : FS) (p c : String) : FS :=
  { files := (p, c) :: fs.files.filter (fun e => !(e.1 == p)) }

/-- `BackupHelper.restoreSQLite(backupPath, dbPath)`: requires the backup to
exist; if the live database file exists, first `copyFileSync` it to
`dbPath + '.pre-restore'`; then `copyFileSync` the backup over the live
database.  Returns the new file system together with the list of
(source, destination) copies performed. -/
def restoreSQLite (fs : FS) (backupPath dbPath : String) :
    Except String (FS × List (String × String)) :=
  if !fs.existsFile backupPath then
    .error ("Backup file not found: " ++ backupPath)
  else
    let step :=
      if fs.existsFile dbPath then
        (fs.write (dbPath ++ ".pre-restore") ((fs.read dbPath).getD ""),
         [(dbPath, dbPath ++ ".pre-restore")])
      else (fs, [])
    .ok (step.1.write dbPath ((step.1.read backupPath).getD ""),
         step.2 ++ [(backupPath, dbPath)])

/-- `BackupHelper.restorePostgreSQL(backupPath, connectionString)`: requires
the backup to exist, then runs `psql "conn" < backup`, replacing the live
database content with the dump.  No file copy of any kind is performed; the
previous live content is returned only as the overwritten value.  Output:
(file system — unchanged, new live database content, copies performed). -/
def restorePostgreSQL (fs : FS) (backupPath : String) (_liveDb : String) :
    Except String (FS × String × List (String × String)) :=
  if !fs.existsFile backupPath then
    .error ("Backup file not found: " ++ backupPath)
  else
    .ok (fs, (fs.read backupPath).getD "", ([] : List (String × String)))

/-- Digit/dash layout of the 19-character timestamp token captured by the
`listBackups` regex `backup-(\d{4}-\d{2}-\d{2}-\d{2}-\d{2}-\d{2})`:
`true` = a decimal digit, `false` = a literal dash. -/
def digitDashLayout : List Bool :=
  [true, true, true, true, false, true, true, false, true, true, false,
   true, true, false, true, true, false, true, true]

/-- Checks a character list against a digit/dash layout, in lockstep. -/
def matchesLayout : List Bool → List Char → Bool
  | [], [] => true
  | true :: p, c :: cs => c.isDigit && matchesLayout p cs
  | false :: p, c :: cs => (c == '-') && matchesLayout p cs
  | _, _ => false

/-- The capture group of the `listBackups` regex: the 19 characters following
`backup-` when they form the `\d{4}-\d{2}-\d{2}-\d{2}-\d{2}-\d{2}` token. -/
def tsToken (cs : List Char) : Option (List Char) :=
  if matchesLayout digitDashLayout (cs.take 19) then some (cs.take 19) else none

/-- The characters of the literal `backup-`. -/
def backupLit : List Char := "backup-".data

/-- The unanchored search `file.match(/backup-(\d{4}-...)/)`: at each start
position try the literal `backup-` followed by the timestamp token; on failure
advance one character. -/
def findBackupToken : List Char → Option (List Char)
  | [] => none
  | c :: cs =>
    if backupLit.isPrefixOf (c :: cs) then
      match tsToken ((c :: cs).drop 7) with
      | some t => some t
      | none => findBackupToken cs
    else findBackupToken cs

/-- One entry of the sequence returned by `listBackups`. -/
structure BackupSet where
  timestamp : String
  files : List String
deriving DecidableEq, Repr

/-- `backups.get(timestamp).files.push(file)` /
`backups.set(timestamp, {timestamp, files: []})` over a JS `Map`, whose
iteration order is insertion order. -/
def addToGroups (gs : List BackupSet) (ts : String) (file : String) : List BackupSet :=
  if gs.any (fun g => g.timestamp == ts) then
    gs.map (fun g => if g.timestamp == ts then { g with files := g.files ++ [file] } else g)
  else gs ++ [{ timestamp := ts, files := [file] }]

/-- The body of the `files.forEach` grouping loop of `listBackups`: a file
whose name contains no `backup-<timestamp>` match is ignored. -/
def groupStep (gs : List BackupSet) (f : String) : List BackupSet :=
  match findBackupToken f.data with
  | some t => addToGroups gs (String.mk t) f
  | none => gs

/-- The `files.forEach` grouping loop of `listBackups`. -/
def collectGroups (files : List String) : List BackupSet :=
  files.foldl groupStep []

/-- Stable insertion of `x` after every already-placed element `y` with
`le y x` (ties keep earlier-inserted elements first). -/
def insertSorted (le : α → α → Bool) (x : α) : List α → List α
  | [] => [x]
  | y :: ys => if le y x then y :: insertSorted le x ys else x :: y :: ys

/-- A stable comparison sort (elements inserted left to right), standing in
for the ES-mandated stable `Array.prototype.sort`. -/
def stableSortBy (le : α → α → Bool) (l : List α) : List α :=
  l.foldl (fun acc x => insertSorted le x acc) []

/-- The comparator `(a, b) => new Date(b.timestamp) - new Date(a.timestamp)`
as a `le` relation (`comparator result <= 0` keeps `a` before `b`).
`dateMillis` is the JS `Date` parse of a token — a parameter of the model,
because parsing of non-ISO strings such as these tokens is
implementation-defined in ECMAScript; a comparator result of `NaN` (either
token unparseable) is treated as `+0` by the sort, i.e. the pair keeps its
order. -/
def jsCmpLe (dateMillis : String → Option Int) (a b : String) : Bool :=
  match dateMillis b, dateMillis a with
  | some mb, some ma => mb - ma ≤ 0
  | _, _ => true

/-- `BackupHelper.listBackups(backupDir)` over the file names of the backup
directory: group by embedded timestamp token, then sort by the date
comparator. -/
def listBackups (dateMillis : String → Option Int) (files : List String) : List BackupSet :=
  stableSortBy (fun a b => jsCmpLe dateMillis a.timestamp b.timestamp) (collectGroups files)

/-! ## Concrete fixtures used by witnesses and counterexamples -/

/-- A representative Cloudinary-tagged file row. -/
def fileOne : FileRec :=
  { id := 1, name := "a.png", hash := "abc", ext := ".png", mime := "image/png"
    size := 10, url := "http://src/abc.png" }

/-- A well-formed uploader configuration with a custom public domain. -/
def cfgGood : R2Config :=
  { accessKeyId := "k", secretAccessKey := "s", region := "auto", bucket := "b"
    endpoint := "https://acct.r2.cloudflarestorage.com"
    publicUrl := some "https://cdn.example" }

/-- A configuration whose endpoint does not match the R2 pattern and which has
no custom public domain configured. -/
def cfgBad : R2Config :=
  { accessKeyId := "k", secretAccessKey := "s", region := "auto", bucket := "b"
    endpoint := "http://localhost:9000", publicUrl := none }

/-- An oracle on which every external call succeeds (destination object
absent, so a real run downloads and uploads). -/
def envGood : RecEnv :=
  { head := .ok, existsRes := .ok false, dlOk := fun _ => true
    uploadOk := true, updateOk := true, beginOk := true, commitOk := true }

/-- Like `envGood` but every download attempt fails. -/
def envDlFail : RecEnv := { envGood with dlOk := fun _ => false }

/-- Like `envGood` but the source probe reports 404. -/
def env404 : RecEnv := { envGood with head := .err404 }

/-- Like `envGood` but the source probe fails with a non-404 error and the
destination object already exists. -/
def envProbeErr : RecEnv := { envGood with head := .errOther, existsRes := .ok true }

/-- A run over one outstanding record with a fresh (absent) state file. -/
def inpFresh : RunInput :=
  { dryRun := false, allFiles := [fileOne], fileContent := none
    env := fun _ => envGood, cfg := cfgGood }

/-- The same record set processed in dry-run mode from a fresh state file. -/
def inpDry : RunInput :=
  { dryRun := true, allFiles := [fileOne], fileContent := none
    env := fun _ => envGood, cfg := cfgGood }

/-- State file left by an earlier run in which record 1 failed. -/
def stateAfterFail : MigState :=
  { status := "completed_with_errors"
    statistics := { total_files := 1, processed := 1, success := 0, failed := 1, skipped := 0 }
    processed_files := [], failed_files := [1], skipped_files := [] }

/-- A resumed run retrying record 1 (previously `failed`), which now succeeds. -/
def inpRetry : RunInput :=
  { dryRun := false, allFiles := [fileOne], fileContent := some stateAfterFail
    env := fun _ => envGood, cfg := cfgGood }

/-- State file left by a run killed after its last per-record save but before
the final status write: record 1 done, zero failures, status still
`in_progress`. -/
def stateKilled : MigState :=
  { status := "in_progress"
    statistics := { total_files := 1, processed := 1, success := 1, failed := 0, skipped := 0 }
    processed_files := [1], failed_files := [], skipped_files := [] }

/-- A restarted run finding zero outstanding records. -/
def inpNoop : RunInput :=
  { dryRun := false, allFiles := [fileOne], fileContent := some stateKilled
    env := fun _ => envGood, cfg := cfgGood }

/-- State file holding accumulated outcomes of earlier runs (one success on a
record that is no longer source-tagged, hence absent from `allFiles`). -/
def statePrior : MigState :=
  { status := "completed"
    statistics := { total_files := 1, processed := 1, success := 1, failed := 0, skipped := 0 }
    processed_files := [2], failed_files := [], skipped_files := [] }

/-- A resumed run handling one new record on top of `statePrior`. -/
def inpResumed : RunInput :=
  { dryRun := false, allFiles := [fileOne], fileContent := some statePrior
    env := fun _ => envGood, cfg := cfgGood }

/-- A real run against the malformed endpoint configuration, with the
destination object reported as already existing. -/
def inpBadEndpoint : RunInput :=
  { dryRun := false, allFiles := [fileOne], fileContent := none
    env := fun _ => { envGood with existsRes := .ok true }, cfg := cfgBad }

/-- The artifact file names of one backup invocation (timestamp token
`2025-12-23-10-00-00`, as produced by `BackupHelper.getTimestamp`):
database snapshot, JSON export, CSV mapping table, and report. -/
def backupDirListing : List String :=
  ["data.db.backup-2025-12-23-10-00-00-000Z",
   "cloudinary-backup-2025-12-23-10-00-00-000Z.json",
   "migration-mapping-2025-12-23-10-00-00-000Z.csv",
   "backup-report-2025-12-23-10-00-00-000Z.txt"]

/-- A date parse for the comparator (irrelevant to a single-group listing). -/
def dmNone : String → Option Int := fun _ => none

/-! ## Helper lemmas about the worker-pool fold -/

/-- The outcome recorded into the state ledger for file `f`. -/
def recordedOutcome (inp : RunInput) (f : FileRec) : Outcome :=
  (processRecord (inp.env f) f inp.cfg inp.dryRun).1.status

/-- Number of `uploader.upload` calls made while handling file `f`. -/
def uploadCallsOf (inp : RunInput) (f : FileRec) : Nat :=
  (processRecord (inp.env f) f inp.cfg inp.dryRun).2.mig.uploadCalls

/-- Number of `db.updateFileToR2` calls made while handling file `f`. -/
def dbUpdateCallsOf (inp : RunInput) (f : FileRec) : Nat :=
  (processRecord (inp.env f) f inp.cfg inp.dryRun).2.mig.dbUpdateCalls

lemma applyOutcome_processed_files (s : MigState) (id : Nat) (o : Outcome) :
    (applyOutcome s id o).processed_files
      = s.processed_files ++ (if o = .success then [id] else []) := by
  cases o <;> simp [applyOutcome]

lemma applyOutcome_failed_files (s : MigState) (id : Nat) (o : Outcome) :
    (applyOutcome s id o).failed_files
      = s.failed_files ++ (if o = .failed then [id] else []) := by
  cases o <;> simp [applyOutcome]

lemma applyOutcome_skipped_files (s : MigState) (id : Nat) (o : Outcome) :
    (applyOutcome s id o).skipped_files
      = s.skipped_files ++ (if o = .skipped then [id] else []) := by
  cases o <;> simp [applyOutcome]

lemma applyOutcome_success_count (s : MigState) (id : Nat) (o : Outcome) :
    (applyOutcome s id o).statistics.success
      = s.statistics.success + (if o = .success then 1 else 0) := by
  cases o <;> simp [applyOutcome]

lemma applyOutcome_failed_count (s : MigState) (id : Nat) (o : Outcome) :
    (applyOutcome s id o).statistics.failed
      = s.statistics.failed + (if o = .failed then 1 else 0) := by
  cases o <;> simp [applyOutcome]

lemma applyOutcome_skipped_count (s : MigState) (id : Nat) (o : Outcome) :
    (applyOutcome s id o).statistics.skipped
      = s.statistics.skipped + (if o = .skipped then 1 else 0) := by
  cases o <;> simp [applyOutcome]

lemma applyOutcome_total_files (s : MigState) (id : Nat) (o : Outcome) :
    (applyOutcome s id o).statistics.total_files = s.statistics.total_files := by
  cases o <;> simp [applyOutcome]

lemma applyOutcome_status (s : MigState) (id : Nat) (o : Outcome) :
    (applyOutcome s id o).status = s.status := by
  cases o <;> simp [applyOutcome]

lemma stepRecord_processed_files (inp : RunInput) (acc : RunAcc) (f : FileRec) :
    (stepRecord inp acc f).st.processed_files
      = acc.st.processed_files ++ (if recordedOutcome inp f = .success then [f.id] else []) := by
  simp [stepRecord, recordedOutcome, applyOutcome_processed_files]

lemma stepRecord_failed_files (inp : RunInput) (acc : RunAcc) (f : FileRec) :
    (stepRecord inp acc f).st.failed_files
      = acc.st.failed_files ++ (if recordedOutcome inp f = .failed then [f.id] else []) := by
  simp [stepRecord, recordedOutcome, applyOutcome_failed_files]

lemma stepRecord_skipped_files (inp : RunInput) (acc : RunAcc) (f : FileRec) :
    (stepRecord inp acc f).st.skipped_files
      = acc.st.skipped_files ++ (if recordedOutcome inp f = .skipped then [f.id] else []) := by
  simp [stepRecord, recordedOutcome, applyOutcome_skipped_files]

lemma stepRecord_success_count (inp : RunInput) (acc : RunAcc) (f : FileRec) :
    (stepRecord inp acc f).st.statistics.success
      = acc.st.statistics.success + (if recordedOutcome inp f = .success then 1 else 0) := by
  simp [stepRecord, recordedOutcome, applyOutcome_success_count]

lemma stepRecord_failed_count (inp : RunInput) (acc : RunAcc) (f : FileRec) :
    (stepRecord inp acc f).st.statistics.failed
      = acc.st.statistics.failed + (if recordedOutcome inp f = .failed then 1 else 0) := by
  simp [stepRecord, recordedOutcome, applyOutcome_failed_count]

lemma stepRecord_skipped_count (inp : RunInput) (acc : RunAcc) (f : FileRec) :
    (stepRecord inp acc f).st.statistics.skipped
      = acc.st.statistics.skipped + (if recordedOutcome inp f = .skipped then 1 else 0) := by
  simp [stepRecord, recordedOutcome, applyOutcome_skipped_count]

lemma stepRecord_total_files (inp : RunInput) (acc : RunAcc) (f : FileRec) :
    (stepRecord inp acc f).st.statistics.total_files = acc.st.statistics.total_files := by
  simp [stepRecord, applyOutcome_total_files]

lemma stepRecord_status (inp : RunInput) (acc : RunAcc) (f : FileRec) :
    (stepRecord inp acc f).st.status = acc.st.status := by
  simp [stepRecord, applyOutcome_status]

lemma stepRecord_processedCount (inp : RunInput) (acc : RunAcc) (f : FileRec) :
    (stepRecord inp acc f).processedCount = acc.processedCount + 1 := rfl

lemma stepRecord_saves (inp : RunInput) (acc : RunAcc) (f : FileRec) :
    (stepRecord inp acc f).saves = acc.saves + 1 := rfl

lemma stepRecord_uploads (inp : RunInput) (acc : RunAcc) (f : FileRec) :
    (stepRecord inp acc f).uploads = acc.uploads + uploadCallsOf inp f := rfl

lemma stepRecord_dbUpdates (inp : RunInput) (acc : RunAcc) (f : FileRec) :
    (stepRecord inp acc f).dbUpdates = acc.dbUpdates + dbUpdateCallsOf inp f := rfl

lemma stepRecord_processed_stat (inp : RunInput) (acc : RunAcc) (f : FileRec) :
    (stepRecord inp acc f).st.statistics.processed = acc.processedCount + 1 := rfl

lemma foldl_processed_files (inp : RunInput) :
    ∀ (l : List FileRec) (acc : RunAcc),
      (l.foldl (stepRecord inp) acc).st.processed_files
        = acc.st.processed_files
          ++ (l.filter (fun f => recordedOutcome inp f == .success)).map (fun f => f.id)
  | [], acc => by simp
  | a :: l, acc => by
    rw [List.foldl_cons, foldl_processed_files inp l, stepRecord_processed_files,
      List.filter_cons]
    by_cases h : recordedOutcome inp a = .success <;> simp [h]

lemma foldl_failed_files (inp : RunInput) :
    ∀ (l : List FileRec) (acc : RunAcc),
      (l.foldl (stepRecord inp) acc).st.failed_files
        = acc.st.failed_files
          ++ (l.filter (fun f => recordedOutcome inp f == .failed)).map (fun f => f.id)
  | [], acc => by simp
  | a :: l, acc => by
    rw [List.foldl_cons, foldl_failed_files inp l, stepRecord_failed_files, List.filter_cons]
    by_cases h : recordedOutcome inp a = .failed <;> simp [h]

lemma foldl_skipped_files (inp : RunInput) :
    ∀ (l : List FileRec) (acc : RunAcc),
      (l.foldl (stepRecord inp) acc).st.skipped_files
        = acc.st.skipped_files
          ++ (l.filter (fun f => recordedOutcome inp f == .skipped)).map (fun f => f.id)
  | [], acc => by simp
  | a :: l, acc => by
    rw [List.foldl_cons, foldl_skipped_files inp l, stepRecord_skipped_files, List.filter_cons]
    by_cases h : recordedOutcome inp a = .skipped <;> simp [h]

lemma foldl_success_count (inp : RunInput) :
    ∀ (l : List FileRec) (acc : RunAcc),
      (l.foldl (stepRecord inp) acc).st.statistics.success
        = acc.st.statistics.success
          + (l.filter (fun f => recordedOutcome inp f == .success)).length
  | [], acc => by simp
  | a :: l, acc => by
    rw [List.foldl_cons, foldl_success_count inp l, stepRecord_success_count, List.filter_cons]
    by_cases h : recordedOutcome inp a = .success <;> simp [h]
    omega

lemma foldl_failed_count (inp : RunInput) :
    ∀ (l : List FileRec) (acc : RunAcc),
      (l.foldl (stepRecord inp) acc).st.statistics.failed
        = acc.st.statistics.failed
          + (l.filter (fun f => recordedOutcome inp f == .failed)).length
  | [], acc => by simp
  | a :: l, acc => by
    rw [List.foldl_cons, foldl_failed_count inp l, stepRecord_failed_count, List.filter_cons]
    by_cases h : recordedOutcome inp a = .failed <;> simp [h]
    omega

lemma foldl_skipped_count (inp : RunInput) :
    ∀ (l : List FileRec) (acc : RunAcc),
      (l.foldl (stepRecord inp) acc).st.statistics.skipped
        = acc.st.statistics.skipped
          + (l.filter (fun f => recordedOutcome inp f == .skipped)).length
  | [], acc => by simp
  | a :: l, acc => by
    rw [List.foldl_cons, foldl_skipped_count inp l, stepRecord_skipped_count, List.filter_cons]
    by_cases h : recordedOutcome inp a = .skipped <;> simp [h]
    omega

lemma foldl_processedCount (inp : RunInput) :
    ∀ (l : List FileRec) (acc : RunAcc),
      (l.foldl (stepRecord inp) acc).processedCount = acc.processedCount + l.length
  | [], acc => by simp
  | a :: l, acc => by
    rw [List.foldl_cons, foldl_processedCount inp l, stepRecord_processedCount]
    simp; omega

lemma foldl_saves (inp : RunInput) :
    ∀ (l : List FileRec) (acc : RunAcc),
      (l.foldl (stepRecord inp) acc).saves = acc.saves + l.length
  | [], acc => by simp
  | a :: l, acc => by
    rw [List.foldl_cons, foldl_saves inp l, stepRecord_saves]
    simp; omega

lemma foldl_uploads (inp : RunInput) :
    ∀ (l : List FileRec) (acc : RunAcc),
      (l.foldl (stepRecord inp) acc).uploads
        = acc.uploads + (l.map (uploadCallsOf inp)).sum
  | [], acc => by simp
  | a :: l, acc => by
    rw [List.foldl_cons, foldl_uploads inp l, stepRecord_uploads]
    simp; omega

lemma foldl_dbUpdates (inp : RunInput) :
    ∀ (l : List FileRec) (acc : RunAcc),
      (l.foldl (stepRecord inp) acc).dbUpdates
        = acc.dbUpdates + (l.map (dbUpdateCallsOf inp)).sum
  | [], acc => by simp
  | a :: l, acc => by
    rw [List.foldl_cons, foldl_dbUpdates inp l, stepRecord_dbUpdates]
    simp; omega

lemma foldl_processed_stat (inp : RunInput) :
    ∀ (l : List FileRec) (acc : RunAcc), l ≠ [] →
      (l.foldl (stepRecord inp) acc).st.statistics.processed
        = acc.processedCount + l.length
  | [], _, h => absurd rfl h
  | a :: l, acc, _ => by
    rw [List.foldl_cons]
    rcases l with _ | ⟨b, l⟩
    · simp [stepRecord_processed_stat]
    · rw [foldl_processed_stat inp (b :: l) (stepRecord inp acc a) (by simp),
        stepRecord_processedCount]
      simp; omega

lemma runMain_empty (inp : RunInput) (h : (outstanding inp).isEmpty = true) :
    runMain inp
      = { memState := (initialAcc inp).st, stateFileAfter := inp.fileContent
          uploads := 0, dbUpdates := 0, saves := 0, exitCode := 0 } := by
  simp [runMain, h]

lemma runMain_nonempty (inp : RunInput) (h : (outstanding inp).isEmpty = false) :
    runMain inp
      = { memState := finalStateOf inp, stateFileAfter := some (finalStateOf inp)
          uploads := (finalAcc inp).uploads, dbUpdates := (finalAcc inp).dbUpdates
          saves := (finalAcc inp).saves + 1, exitCode := 0 } := by
  simp [runMain, h]

lemma runMain_exitCode (inp : RunInput) : (runMain inp).exitCode = 0 := by
  by_cases h : (outstanding inp).isEmpty = true
  · rw [runMain_empty inp h]
  · rw [runMain_nonempty inp (Bool.not_eq_true _ ▸ h)]

lemma initialAcc_st_files (inp : RunInput) :
    (initialAcc inp).st.processed_files = (loadStateOf inp).processed_files
  ∧ (initialAcc inp).st.failed_files = (loadStateOf inp).failed_files
  ∧ (initialAcc inp).st.skipped_files = (loadStateOf inp).skipped_files := by
  refine ⟨rfl, rfl, rfl⟩

lemma filter_outcome_partition (inp : RunInput) :
    ∀ l : List FileRec,
      (l.filter (fun f => recordedOutcome inp f == .success)).length
        + (l.filter (fun f => recordedOutcome inp f == .failed)).length
        + (l.filter (fun f => recordedOutcome inp f == .skipped)).length
      = l.length
  | [] => by simp
  | a :: l => by
    have ih := filter_outcome_partition inp l
    rcases h : recordedOutcome inp a <;>
      simp [List.filter_cons, h] <;> omega

/-! ## Helper lemmas about `migrateFile` and `processRecord` -/

lemma migrateFile_dryRun_trace (env : RecEnv) (f : FileRec) (cfg : R2Config) :
    (migrateFile env f cfg true).2.uploadCalls = 0
  ∧ (migrateFile env f cfg true).2.dbUpdateCalls = 0
  ∧ (migrateFile env f cfg true).2.getAttempts = [] := by
  cases hh : env.head
  case err404 => simp [migrateFile, hh, emptyMigTrace]
  all_goals
    cases he : env.existsRes with
    | error e => simp [migrateFile, hh, he, emptyMigTrace]
    | ok exs =>
      cases exs <;>
        cases hg : getPublicUrl cfg (f.hash ++ f.ext) <;>
          simp [migrateFile, hh, he, hg, finishUpdate, emptyMigTrace]

lemma processRecord_dryRun_trace (env : RecEnv) (f : FileRec) (cfg : R2Config) :
    (processRecord env f cfg true).2.mig.uploadCalls = 0
  ∧ (processRecord env f cfg true).2.mig.dbUpdateCalls = 0 := by
  have h := migrateFile_dryRun_trace env f cfg
  simp only [processRecord, if_pos rfl]
  exact ⟨h.1, h.2.1⟩

lemma migrateFile_head_swallowed (env : RecEnv) (f : FileRec) (cfg : R2Config)
    (dryRun : Bool) :
    migrateFile { env with head := .errOther } f cfg dryRun
      = migrateFile { env with head := .ok } f cfg dryRun := rfl

lemma processRecord_head_swallowed (env : RecEnv) (f : FileRec) (cfg : R2Config)
    (dryRun : Bool) :
    processRecord { env with head := .errOther } f cfg dryRun
      = processRecord { env with head := .ok } f cfg dryRun := rfl

lemma migrateFile_404 (env : RecEnv) (f : FileRec) (cfg : R2Config) (dryRun : Bool)
    (h : env.head = .err404) :
    migrateFile env f cfg dryRun
      = ({ status := .skipped, newUrl := none
           reason := some "File not found on Cloudinary (404)", error := none },
         emptyMigTrace) := by
  simp [migrateFile, h]

lemma processRecord_404 (env : RecEnv) (f : FileRec) (cfg : R2Config) (dryRun : Bool)
    (hh : env.head = .err404) (hb : env.beginOk = true) (hc : env.commitOk = true) :
    (processRecord env f cfg dryRun).1.status = .skipped
  ∧ (processRecord env f cfg dryRun).2.mig = emptyMigTrace
  ∧ (processRecord env f cfg dryRun).2.rollbackCalled = false
  ∧ (dryRun = false → (processRecord env f cfg dryRun).2.beganCalled = true
                    ∧ (processRecord env f cfg dryRun).2.commitCalled = true) := by
  cases dryRun <;> simp [processRecord, hb, hc, migrateFile_404 env f cfg _ hh]

lemma migrateFile_invalid_endpoint (env : RecEnv) (f : FileRec) (cfg : R2Config)
    (dryRun : Bool) (hp : cfg.publicUrl = none)
    (hs : accountIdScan cfg.endpoint.data = none)
    (hh : env.head ≠ .err404) (he : env.existsRes = .ok true) :
    migrateFile env f cfg dryRun
      = ({ status := .failed, newUrl := none, reason := none
           error := some "Invalid R2 endpoint format" }, emptyMigTrace) := by
  have hg : getPublicUrl cfg (f.hash ++ f.ext) = .error "Invalid R2 endpoint format" := by
    simp [getPublicUrl, hp, hs]
  cases hhd : env.head
  case err404 => exact absurd hhd hh
  all_goals simp [migrateFile, hhd, he, hg]

lemma processRecord_invalid_endpoint (env : RecEnv) (f : FileRec) (cfg : R2Config)
    (hp : cfg.publicUrl = none) (hs : accountIdScan cfg.endpoint.data = none)
    (hh : env.head ≠ .err404) (he : env.existsRes = .ok true)
    (hb : env.beginOk = true) (hc : env.commitOk = true) :
    (processRecord env f cfg false).1
      = { status := .failed, newUrl := none, reason := none
          error := some "Invalid R2 endpoint format" } := by
  simp [processRecord, hb, hc, migrateFile_invalid_endpoint env f cfg false hp hs hh he]

/-- Case analysis of `downloadFromCloudinary` at the default `retries = 3`. -/
lemma dl3_cases (dlOk : Nat → Bool) :
    downloadFromCloudinary dlOk 3
      = if dlOk 0 then
          { ok := true, err := none, attempts := [axiosGetConfig], delays := [] }
        else if dlOk 1 then
          { ok := true, err := none, attempts := [axiosGetConfig, axiosGetConfig]
            delays := [1000] }
        else if dlOk 2 then
          { ok := true, err := none
            attempts := [axiosGetConfig, axiosGetConfig, axiosGetConfig]
            delays := [1000, 2000] }
        else
          { ok := false, err := some (downloadFailureMsg 3)
            attempts := [axiosGetConfig, axiosGetConfig, axiosGetConfig]
            delays := [1000, 2000] } := by
  rcases h0 : dlOk 0 <;> rcases h1 : dlOk 1 <;> rcases h2 : dlOk 2 <;>
    simp [downloadFromCloudinary, dlLoop, h0, h1, h2]

/-- In a real run against an absent destination object, the download trace of
`migrateFile` is exactly the trace of `downloadFromCloudinary`. -/
lemma migrateFile_download_trace (env : RecEnv) (f : FileRec) (cfg : R2Config)
    (hh : env.head ≠ .err404) (he : env.existsRes = .ok false) :
    (migrateFile env f cfg false).2.getAttempts
        = (downloadFromCloudinary env.dlOk 3).attempts
  ∧ (migrateFile env f cfg false).2.delays = (downloadFromCloudinary env.dlOk 3).delays
  ∧ ((downloadFromCloudinary env.dlOk 3).ok = false →
       (migrateFile env f cfg false).1.status = .failed
     ∧ (migrateFile env f cfg false).1.error = (downloadFromCloudinary env.dlOk 3).err) := by
  cases hhd : env.head
  case err404 => exact absurd hhd hh
  all_goals
    rcases hdl : downloadFromCloudinary env.dlOk 3 with ⟨ok, err, attempts, delays⟩
    all_goals
      cases ok <;>
        cases hu : uploadR2 env cfg (f.hash ++ f.ext) <;>
          · simp [migrateFile, hhd, he, hdl, hu, finishUpdate]
            try cases env.updateOk <;> simp

lemma disjoint_filter_map_id (l : List FileRec)
    (hnd : (l.map (fun f => f.id)).Nodup) (p q : FileRec → Bool)
    (hpq : ∀ f, ¬(p f = true ∧ q f = true)) :
    ((l.filter p).map (fun f => f.id)).Disjoint ((l.filter q).map (fun f => f.id)) := by
  intro x hxp hxq
  rcases List.mem_map.1 hxp with ⟨f1, hf1, rfl⟩
  rcases List.mem_map.1 hxq with ⟨f2, hf2, hid⟩
  rcases List.mem_filter.1 hf1 with ⟨hf1l, hp1⟩
  rcases List.mem_filter.1 hf2 with ⟨hf2l, hq2⟩
  have heq : f1 = f2 := List.inj_on_of_nodup_map hnd hf1l hf2l hid.symm
  exact hpq f1 ⟨hp1, heq ▸ hq2⟩

/-! ## Helper lemmas about `listBackups` -/

lemma mem_insertSorted (le : α → α → Bool) (x a : α) :
    ∀ l : List α, a ∈ insertSorted le x l ↔ a = x ∨ a ∈ l
  | [] => by simp [insertSorted]
  | y :: ys => by
    by_cases h : le y x = true <;>
      · simp [insertSorted, h, mem_insertSorted le x a ys]
        try tauto

lemma mem_stableSortBy_aux (le : α → α → Bool) (a : α) :
    ∀ (l acc : List α),
      a ∈ l.foldl (fun acc x => insertSorted le x acc) acc ↔ a ∈ acc ∨ a ∈ l
  | [], acc => by simp
  | x :: l, acc => by
    rw [List.foldl_cons, mem_stableSortBy_aux le a l]
    simp [mem_insertSorted]
    tauto

lemma mem_stableSortBy (le : α → α → Bool) (a : α) (l : List α) :
    a ∈ stableSortBy le l ↔ a ∈ l := by
  rw [stableSortBy, mem_stableSortBy_aux]
  simp

lemma addToGroups_sound {P : String → String → Prop} (gs : List BackupSet)
    (ts file : String) (hgs : ∀ g ∈ gs, ∀ f ∈ g.files, P f g.timestamp)
    (hf : P file ts) :
    ∀ g ∈ addToGroups gs ts file, ∀ f ∈ g.files, P f g.timestamp := by
  intro g hg f hfg
  unfold addToGroups at hg
  by_cases hany : gs.any (fun g => g.timestamp == ts) = true
  · rw [if_pos hany] at hg
    rcases List.mem_map.1 hg with ⟨g0, hg0, rfl⟩
    by_cases hts : (g0.timestamp == ts) = true
    · rw [if_pos hts] at hfg ⊢
      rcases List.mem_append.1 hfg with hold | hnew
      · exact hgs g0 hg0 f hold
      · have : f = file := by simpa using hnew
        subst this
        simpa [eq_of_beq hts] using hf
    · rw [if_neg hts] at hfg ⊢
      exact hgs g0 hg0 f hfg
  · rw [if_neg hany] at hg
    rcases List.mem_append.1 hg with hold | hnew
    · exact hgs g hold f hfg
    · have hgeq : g = { timestamp := ts, files := [file] } := by simpa using hnew
      subst hgeq
      have : f = file := by simpa using hfg
      subst this
      exact hf

lemma addToGroups_mem_new (gs : List BackupSet) (ts file : String) :
    ∃ g ∈ addToGroups gs ts file, g.timestamp = ts ∧ file ∈ g.files := by
  unfold addToGroups
  by_cases hany : gs.any (fun g => g.timestamp == ts) = true
  · rw [if_pos hany]
    rcases List.any_eq_true.1 hany with ⟨g0, hg0, hts⟩
    refine ⟨if g0.timestamp == ts then { g0 with files := g0.files ++ [file] } else g0,
      List.mem_map_of_mem _ hg0, ?_⟩
    rw [if_pos hts]
    exact ⟨eq_of_beq hts, by simp⟩
  · rw [if_neg hany]
    exact ⟨{ timestamp := ts, files := [file] }, by simp, rfl, by simp⟩

lemma addToGroups_preserves (gs : List BackupSet) (ts file : String) (g : BackupSet)
    (hg : g ∈ gs) (f : String) (hf : f ∈ g.files) :
    ∃ g' ∈ addToGroups gs ts file, g'.timestamp = g.timestamp ∧ f ∈ g'.files := by
  unfold addToGroups
  by_cases hany : gs.any (fun g => g.timestamp == ts) = true
  · rw [if_pos hany]
    refine ⟨if g.timestamp == ts then { g with files := g.files ++ [file] } else g,
      List.mem_map_of_mem _ hg, ?_⟩
    by_cases hts : (g.timestamp == ts) = true <;> simp [hts, hf]
  · rw [if_neg hany]
    exact ⟨g, List.mem_append_left _ hg, rfl, hf⟩

lemma groupStep_sound {P : String → String → Prop} (gs : List BackupSet) (file : String)
    (hgs : ∀ g ∈ gs, ∀ f ∈ g.files, P f g.timestamp)
    (hf : ∀ t, findBackupToken file.data = some t → P file (String.mk t)) :
    ∀ g ∈ groupStep gs file, ∀ f ∈ g.files, P f g.timestamp := by
  unfold groupStep
  cases ht : findBackupToken file.data with
  | none => simpa using hgs
  | some t => exact addToGroups_sound gs _ file hgs (hf t ht)

lemma collectFold_sound {P : String → String → Prop} :
    ∀ (l : List String) (gs : List BackupSet),
      (∀ g ∈ gs, ∀ f ∈ g.files, P f g.timestamp) →
      (∀ file ∈ l, ∀ t, findBackupToken file.data = some t → P file (String.mk t)) →
      ∀ g ∈ l.foldl groupStep gs, ∀ f ∈ g.files, P f g.timestamp
  | [], gs, hgs, _ => by simpa using hgs
  | file :: l, gs, hgs, hl => by
    rw [List.foldl_cons]
    exact collectFold_sound l (groupStep gs file)
      (groupStep_sound gs file hgs (fun t ht => hl file (by simp) t ht))
      (fun f hf t ht => hl f (by simp [hf]) t ht)

lemma collectFold_preserves :
    ∀ (l : List String) (gs : List BackupSet) (g : BackupSet), g ∈ gs →
      ∀ f ∈ g.files,
        ∃ g' ∈ l.foldl groupStep gs, g'.timestamp = g.timestamp ∧ f ∈ g'.files
  | [], gs, g, hg, f, hf => ⟨g, by simpa using hg, rfl, hf⟩
  | file :: l, gs, g, hg, f, hf => by
    rw [List.foldl_cons]
    unfold groupStep
    cases ht : findBackupToken file.data with
    | none => exact collectFold_preserves l gs g hg f hf
    | some t =>
      rcases addToGroups_preserves gs (String.mk t) file g hg f hf with ⟨g', hg', hts, hf'⟩
      rcases collectFold_preserves l _ g' hg' f hf' with ⟨g'', hg'', hts', hf''⟩
      exact ⟨g'', hg'', hts'.trans hts, hf''⟩

lemma collectFold_complete :
    ∀ (l : List String) (gs : List BackupSet) (file : String) (t : List Char),
      file ∈ l → findBackupToken file.data = some t →
      ∃ g ∈ l.foldl groupStep gs, g.timestamp = String.mk t ∧ file ∈ g.files
  | [], _, _, _, h, _ => absurd h (List.not_mem_nil _)
  | f0 :: l, gs, file, t, hmem, ht => by
    rw [List.foldl_cons]
    rcases List.mem_cons.1 hmem with rfl | hmem'
    · have hstep : groupStep gs file = addToGroups gs (String.mk t) file := by
        simp [groupStep, ht]
      rw [hstep]
      rcases addToGroups_mem_new gs (String.mk t) file with ⟨g, hg, hts, hf⟩
      rcases collectFold_preserves l _ g hg file hf with ⟨g', hg', hts', hf'⟩
      exact ⟨g', hg', hts'.trans hts, hf'⟩
    · exact collectFold_complete l (groupStep gs f0) file t hmem' ht

lemma listBackups_sound (dm : String → Option Int) (files : List String) :
    ∀ g ∈ listBackups dm files, ∀ f ∈ g.files,
      f ∈ files ∧ findBackupToken f.data = some g.timestamp.data := by
  intro g hg
  have hg' : g ∈ collectGroups files := (mem_stableSortBy _ g _).1 hg
  exact collectFold_sound
    (P := fun f ts => f ∈ files ∧ findBackupToken f.data = some ts.data)
    files [] (by simp) (fun file hf t ht => ⟨hf, ht⟩) g hg'

lemma listBackups_complete (dm : String → Option Int) (files : List String)
    (f : String) (hf : f ∈ files) (t : List Char)
    (ht : findBackupToken f.data = some t) :
    ∃ g ∈ listBackups dm files, g.timestamp = String.mk t ∧ f ∈ g.files := by
  rcases collectFold_complete files [] f t hf ht with ⟨g, hg, hts, hfg⟩
  exact ⟨g, (mem_stableSortBy _ g _).2 hg, hts, hfg⟩

lemma findBackupToken_of_no_b :
    ∀ cs : List Char, (∀ c ∈ cs, ¬ c = 'b') → findBackupToken cs = none
  | [], _ => rfl
  | c :: cs, h => by
    have hc : ¬ c = 'b' := h c (by simp)
    have hbc : ('b' == c) = false := beq_eq_false_iff_ne.2 (fun hh => hc hh.symm)
    have hpre : backupLit.isPrefixOf (c :: cs) = false := by
      rw [show backupLit = 'b' :: "ackup-".data from rfl]
      simp [List.isPrefixOf, hbc]
    have hrest := findBackupToken_of_no_b cs (fun c' hc' => h c' (by simp [hc']))
    simp [findBackupToken, hpre, hrest]

lemma findBackupToken_mapping_csv (s : String) (hs : ∀ c ∈ s.data, ¬ c = 'b') :
    findBackupToken ("migration-mapping-" ++ s).data = none := by
  have h1 : ∀ c ∈ "migration-mapping-".data, ¬ c = 'b' := by decide
  have hd : ("migration-mapping-" ++ s).data = "migration-mapping-".data ++ s.data := rfl
  rw [hd]
  exact findBackupToken_of_no_b _ (fun c hc => by
    rcases List.mem_append.1 hc with h | h
    · exact h1 c h
    · exact hs c h)

lemma findBackupToken_report (s : String) (hs : ∀ c ∈ s.data, ¬ c = 'b') :
    findBackupToken ("backup-report-" ++ s).data = none := by
  have h1 : ∀ c ∈ "ackup-report-".data, ¬ c = 'b' := by decide
  exact findBackupToken_of_no_b ("ackup-report-".data ++ s.data) (fun c hc => by
    rcases List.mem_append.1 hc with h | h
    · exact h1 c h
    · exact hs c h)

/-! ## Helper lemmas about the modelled file system -/

lemma find_key_filter (p q : String) (h : ¬ q = p) :
    ∀ l : List (String × String),
      (l.filter (fun e => !(e.1 == p))).find? (fun e => e.1 == q)
        = l.find? (fun e => e.1 == q)
  | [] => rfl
  | (a, b) :: l => by
    by_cases hap : a = p
    · have h1 : (a == p) = true := beq_iff_eq.2 hap
      have h2 : (a == q) = false := beq_eq_false_iff_ne.2 (fun hh => h (hh ▸ hap))
      rw [List.filter_cons_of_neg (by simp [h1]), List.find?_cons_of_neg _ (by simp [h2]),
        find_key_filter p q h l]
    · have h1 : (a == p) = false := beq_eq_false_iff_ne.2 hap
      by_cases haq : a = q
      · have h2 : (a == q) = true := beq_iff_eq.2 haq
        rw [List.filter_cons_of_pos (by simp [h1]), List.find?_cons_of_pos _ (by simp [h2]),
          List.find?_cons_of_pos _ (by simp [h2])]
      · have h2 : (a == q) = false := beq_eq_false_iff_ne.2 haq
        rw [List.filter_cons_of_pos (by simp [h1]), List.find?_cons_of_neg _ (by simp [h2]),
          List.find?_cons_of_neg _ (by simp [h2]), find_key_filter p q h l]

lemma FS.read_write_self (fs : FS) (p c : String) : (fs.write p c).read p = some c := by
  simp [FS.write, FS.read]

lemma FS.read_write_ne (fs : FS) (p c : String) (q : String) (h : ¬ q = p) :
    (fs.write p c).read q = fs.read q := by
  have h2 : (p == q) = false := beq_eq_false_iff_ne.2 (fun hh => h hh.symm)
  simp [FS.write, FS.read, h2, find_key_filter p q h fs.files]

lemma FS.read_isSome_of_exists (fs : FS) (p : String) (h : fs.existsFile p = true) :
    ∃ c, fs.read p = some c := by
  rcases List.any_eq_true.1 h with ⟨e, he, hp⟩
  have hsome : (fs.files.find? (fun e => e.1 == p)).isSome :=
    List.find?_isSome.2 ⟨e, he, hp⟩
  rcases Option.isSome_iff_exists.1 hsome with ⟨e', he'⟩
  exact ⟨e'.2, by simp [FS.read, he']⟩

/-! ## Claims -/

/-- C1: on a real run, a record whose download fails on every attempt gets the
outcome `failed`, yet the surrounding per-record transaction is committed, not
rolled back (and no rewrite was issued inside it): `migrateFile` catches all
step errors internally, so the worker's rollback branch never fires for step
failures, contradicting the claimed failure-triggers-rollback behaviour. -/
theorem c1_failed_download_commits :
    (processRecord envDlFail fileOne cfgGood false).1.status = .failed
  ∧ (processRecord envDlFail fileOne cfgGood false).2.commitCalled = true
  ∧ (processRecord envDlFail fileOne cfgGood false).2.rollbackCalled = false
  ∧ (processRecord envDlFail fileOne cfgGood false).2.mig.dbUpdateCalls = 0 := by
  decide

/-- C2 counterexample: a dry run over one fresh record writes the migration
state file twice (per-record save and the final save) and leaves the record in
`processed_files`, so dry runs do persist resumable state. -/
theorem c2_counterexample :
    inpDry.dryRun = true
  ∧ (runMain inpDry).saves = 2
  ∧ (runMain inpDry).stateFileAfter
      = some { status := "completed"
               statistics :=
                 { total_files := 1, processed := 1, success := 1, failed := 0, skipped := 0 }
               processed_files := [1], failed_files := [], skipped_files := [] } := by
  decide

/-- C2 (amended): a dry-run invocation never calls the database rewrite
operation and never calls upload, but it does persist state: `saveState` runs
after every record and once more at completion, so a dry run over `n > 0`
outstanding records writes the state file `n + 1` times and leaves the final
state on disk. -/
theorem c2_dry_run_behavior (inp : RunInput) (hd : inp.dryRun = true) :
    (runMain inp).uploads = 0 ∧ (runMain inp).dbUpdates = 0
  ∧ ((outstanding inp).isEmpty = false →
       (runMain inp).saves = (outstanding inp).length + 1
     ∧ (runMain inp).stateFileAfter = some (runMain inp).memState) := by
  by_cases h : (outstanding inp).isEmpty = true
  · rw [runMain_empty inp h]
    exact ⟨rfl, rfl, fun hne => absurd h (by simp [hne])⟩
  · have h' : (outstanding inp).isEmpty = false := by simpa using h
    rw [runMain_nonempty inp h']
    refine ⟨?_, ?_, fun _ => ⟨?_, rfl⟩⟩
    · show (finalAcc inp).uploads = 0
      rw [finalAcc, foldl_uploads]
      have hz : ∀ x ∈ (outstanding inp).map (uploadCallsOf inp), x = 0 := by
        intro x hx
        rcases List.mem_map.1 hx with ⟨f, hf, rfl⟩
        have hm := processRecord_dryRun_trace (inp.env f) f inp.cfg
        simpa [uploadCallsOf, hd] using hm.1
      simp [List.sum_eq_zero hz, initialAcc]
    · show (finalAcc inp).dbUpdates = 0
      rw [finalAcc, foldl_dbUpdates]
      have hz : ∀ x ∈ (outstanding inp).map (dbUpdateCallsOf inp), x = 0 := by
        intro x hx
        rcases List.mem_map.1 hx with ⟨f, hf, rfl⟩
        have hm := processRecord_dryRun_trace (inp.env f) f inp.cfg
        simpa [dbUpdateCallsOf, hd] using hm.2
      simp [List.sum_eq_zero hz, initialAcc]
    · show (finalAcc inp).saves + 1 = (outstanding inp).length + 1
      rw [finalAcc, foldl_saves]
      simp [initialAcc]

/-- C2 witness: the amended dry-run behaviour at the one-record input. -/
theorem c2_dry_run_behavior_witness :
    (runMain inpDry).uploads = 0 ∧ (runMain inpDry).dbUpdates = 0
  ∧ (runMain inpDry).saves = (outstanding inpDry).length + 1 := by
  have h := c2_dry_run_behavior inpDry rfl
  exact ⟨h.1, h.2.1, (h.2.2 (by decide)).1⟩

/-- C3 counterexample: a non-404 source-probe failure (timeout, network error,
non-404 status) is swallowed and processing continues — here the record ends
`success`, not `failed`; and on a real run a 404-skipped record still has a
transaction opened around it. -/
theorem c3_counterexample :
    (processRecord envProbeErr fileOne cfgGood false).1.status = .success
  ∧ (processRecord env404 fileOne cfgGood false).2.beganCalled = true := by
  decide

/-- C3 (amended): a 404-class probe failure yields `skipped` with no download,
no upload and no database rewrite (though on a real run the per-record
transaction has already been opened and is committed); every other probe
failure is ignored — the record is processed exactly as if the probe had
succeeded. -/
theorem c3_probe_handling (env : RecEnv) (f : FileRec) (cfg : R2Config) (dryRun : Bool) :
    (env.head = .err404 → env.beginOk = true → env.commitOk = true →
       (processRecord env f cfg dryRun).1.status = .skipped
     ∧ (processRecord env f cfg dryRun).2.mig.uploadCalls = 0
     ∧ (processRecord env f cfg dryRun).2.mig.getAttempts = []
     ∧ (processRecord env f cfg dryRun).2.mig.dbUpdateCalls = 0
     ∧ (dryRun = false → (processRecord env f cfg dryRun).2.beganCalled = true
                       ∧ (processRecord env f cfg dryRun).2.commitCalled = true))
  ∧ processRecord { env with head := .errOther } f cfg dryRun
      = processRecord { env with head := .ok } f cfg dryRun := by
  constructor
  · intro hh hb hc
    have h := processRecord_404 env f cfg dryRun hh hb hc
    refine ⟨h.1, ?_, ?_, ?_, h.2.2.2⟩ <;> rw [h.2.1] <;> rfl
  · exact processRecord_head_swallowed env f cfg dryRun

/-- C3 witness: the amended probe behaviour at the concrete 404 input. -/
theorem c3_probe_handling_witness :
    (processRecord env404 fileOne cfgGood false).1.status = .skipped
  ∧ (processRecord env404 fileOne cfgGood false).2.mig.uploadCalls = 0
  ∧ (processRecord env404 fileOne cfgGood false).2.commitCalled = true := by
  have h := (c3_probe_handling env404 fileOne cfgGood false).1 rfl rfl rfl
  exact ⟨h.1, h.2.1, (h.2.2.2.2 rfl).2⟩

/-- C4 counterexample: a resumed run that retries a previously-`failed` record
(id 1) and succeeds pushes it into `processed_files` without removing the old
`failed_files` entry, so the id sits in two outcome collections at once. -/
theorem c4_counterexample :
    1 ∈ (runMain inpRetry).memState.processed_files
  ∧ 1 ∈ (runMain inpRetry).memState.failed_files
  ∧ (runMain inpRetry).stateFileAfter = some (runMain inpRetry).memState := by
  decide

/-- C4 (amended): outcome entries are only ever appended, so after any run
(including a restart from a killed run's persisted state) each collection
extends the loaded one; and a run started from a fresh (absent) state file
over records with distinct ids ends with pairwise-disjoint collections.
Disjointness can fail on resumption: an id retried into a different collection
keeps its old entry (see the counterexample). -/
theorem c4_collections (inp : RunInput) :
    ((∃ t, (runMain inp).memState.processed_files
            = (loadStateOf inp).processed_files ++ t)
   ∧ (∃ t, (runMain inp).memState.failed_files = (loadStateOf inp).failed_files ++ t)
   ∧ (∃ t, (runMain inp).memState.skipped_files = (loadStateOf inp).skipped_files ++ t))
  ∧ (inp.fileContent = none → (inp.allFiles.map (fun f => f.id)).Nodup →
       (runMain inp).memState.processed_files.Disjoint (runMain inp).memState.failed_files
     ∧ (runMain inp).memState.processed_files.Disjoint (runMain inp).memState.skipped_files
     ∧ (runMain inp).memState.failed_files.Disjoint (runMain inp).memState.skipped_files) := by
  have hnodup : ∀ (hn : (inp.allFiles.map (fun f => f.id)).Nodup),
      ((outstanding inp).map (fun f => f.id)).Nodup := by
    intro hn
    exact hn.sublist (List.Sublist.map _ (List.filter_sublist _))
  by_cases h : (outstanding inp).isEmpty = true
  · rw [runMain_empty inp h]
    refine ⟨⟨⟨[], by simp [initialAcc]⟩, ⟨[], by simp [initialAcc]⟩,
      ⟨[], by simp [initialAcc]⟩⟩, ?_⟩
    intro hfc _
    simp only [initialAcc, loadStateOf, hfc, Option.getD_none, freshState]
    exact ⟨by simp [List.Disjoint], by simp [List.Disjoint], by simp [List.Disjoint]⟩
  · have h' : (outstanding inp).isEmpty = false := by simpa using h
    rw [runMain_nonempty inp h']
    have hP : (finalStateOf inp).processed_files
        = (loadStateOf inp).processed_files
          ++ ((outstanding inp).filter
                (fun f => recordedOutcome inp f == .success)).map (fun f => f.id) := by
      show (finalAcc inp).st.processed_files = _
      rw [finalAcc, foldl_processed_files]
      rfl
    have hF : (finalStateOf inp).failed_files
        = (loadStateOf inp).failed_files
          ++ ((outstanding inp).filter
                (fun f => recordedOutcome inp f == .failed)).map (fun f => f.id) := by
      show (finalAcc inp).st.failed_files = _
      rw [finalAcc, foldl_failed_files]
      rfl
    have hK : (finalStateOf inp).skipped_files
        = (loadStateOf inp).skipped_files
          ++ ((outstanding inp).filter
                (fun f => recordedOutcome inp f == .skipped)).map (fun f => f.id) := by
      show (finalAcc inp).st.skipped_files = _
      rw [finalAcc, foldl_skipped_files]
      rfl
    refine ⟨⟨⟨_, hP⟩, ⟨_, hF⟩, ⟨_, hK⟩⟩, ?_⟩
    intro hfc hn
    have hfresh : loadStateOf inp = freshState := by simp [loadStateOf, hfc]
    rw [hP, hF, hK, hfresh]
    simp only [freshState, List.nil_append]
    have hnd := hnodup hn
    refine ⟨?_, ?_, ?_⟩ <;>
      · apply disjoint_filter_map_id _ hnd
        intro f hf
        rcases hf with ⟨h1, h2⟩
        rw [beq_iff_eq] at h1 h2
        rw [h1] at h2
        exact Outcome.noConfusion h2

/-- C4 witness: the amended collection behaviour at the fresh one-record
input. -/
theorem c4_collections_witness :
    (runMain inpFresh).memState.processed_files.Disjoint
      (runMain inpFresh).memState.failed_files
  ∧ ∃ t, (runMain inpRetry).memState.failed_files
          = (loadStateOf inpRetry).failed_files ++ t := by
  exact ⟨((c4_collections inpFresh).2 rfl (by decide)).1, (c4_collections inpRetry).1.2.1⟩

/-- C5 counterexample: a run that finds zero outstanding records returns early
without writing the state file, so a state left by a killed run keeps status
`in_progress` even though its failed counter is zero — the final persisted
status is neither `completed` nor `completed_with_errors`. -/
theorem c5_counterexample :
    (runMain inpNoop).stateFileAfter = some stateKilled
  ∧ stateKilled.statistics.failed = 0
  ∧ ¬ stateKilled.status = "completed"
  ∧ ¬ stateKilled.status = "completed_with_errors" := by
  decide

/-- C5 (amended): a zero-outstanding run is a no-op success — exit code 0, no
uploads, no rewrites, no state-file write, prior persisted state (whatever its
status) left untouched; a run processing at least one record persists a final
state whose status is `completed_with_errors` iff its accumulated failed
counter is positive, and `completed` otherwise — never any other value. -/
theorem c5_final_status (inp : RunInput) :
    ((outstanding inp).isEmpty = true →
       (runMain inp).stateFileAfter = inp.fileContent
     ∧ (runMain inp).uploads = 0 ∧ (runMain inp).dbUpdates = 0
     ∧ (runMain inp).saves = 0 ∧ (runMain inp).exitCode = 0)
  ∧ ((outstanding inp).isEmpty = false →
       ∃ s, (runMain inp).stateFileAfter = some s
         ∧ (runMain inp).memState = s
         ∧ s.status
             = (if 0 < s.statistics.failed then "completed_with_errors" else "completed")
         ∧ (runMain inp).exitCode = 0) := by
  constructor
  · intro h
    rw [runMain_empty inp h]
    exact ⟨rfl, rfl, rfl, rfl, rfl⟩
  · intro h
    rw [runMain_nonempty inp h]
    exact ⟨finalStateOf inp, rfl, rfl, rfl, rfl⟩

/-- C5 witness: the amended run-status behaviour at the no-op input and at the
one-record input. -/
theorem c5_final_status_witness :
    (runMain inpNoop).stateFileAfter = inpNoop.fileContent
  ∧ ∃ s, (runMain inpFresh).stateFileAfter = some s
      ∧ s.status
          = (if 0 < s.statistics.failed then "completed_with_errors" else "completed") := by
  refine ⟨((c5_final_status inpNoop).1 (by decide)).1, ?_⟩
  rcases (c5_final_status inpFresh).2 (by decide) with ⟨s, h1, _, h3, _⟩
  exact ⟨s, h1, h3⟩

/-- C6: when the destination object is absent on a real run, the source
payload is fetched with up to 3 attempts, each `axios.get` using a 60 s
timeout and a 100 MiB `maxContentLength` ceiling; a sleep of `1000 * (i + 1)`
ms follows the i-th failed attempt (1 s, then 2 s); and exhausting all three
attempts makes the record `failed` with the download-exhausted error. -/
theorem c6_download_policy (env : RecEnv) (f : FileRec) (cfg : R2Config)
    (hh : ¬ env.head = .err404) (he : env.existsRes = .ok false) :
    (migrateFile env f cfg false).2.getAttempts
        = (downloadFromCloudinary env.dlOk 3).attempts
  ∧ (migrateFile env f cfg false).2.delays = (downloadFromCloudinary env.dlOk 3).delays
  ∧ (downloadFromCloudinary env.dlOk 3).attempts.length ≤ 3
  ∧ (∀ c ∈ (downloadFromCloudinary env.dlOk 3).attempts,
       c = { timeout := 60000, maxContentLength := 100 * 1024 * 1024 })
  ∧ (downloadFromCloudinary env.dlOk 3).delays
      = (List.range ((downloadFromCloudinary env.dlOk 3).attempts.length - 1)).map
          (fun i => 1000 * (i + 1))
  ∧ ((env.dlOk 0 = false ∧ env.dlOk 1 = false ∧ env.dlOk 2 = false) →
       (migrateFile env f cfg false).1.status = .failed
     ∧ (migrateFile env f cfg false).1.error = some (downloadFailureMsg 3)) := by
  have htr := migrateFile_download_trace env f cfg hh he
  refine ⟨htr.1, htr.2.1, ?_, ?_, ?_, ?_⟩
  · rw [dl3_cases]
    rcases h0 : env.dlOk 0 <;> rcases h1 : env.dlOk 1 <;> rcases h2 : env.dlOk 2 <;> simp
  · rw [dl3_cases]
    rcases h0 : env.dlOk 0 <;> rcases h1 : env.dlOk 1 <;> rcases h2 : env.dlOk 2 <;>
      simp [axiosGetConfig]
  · rw [dl3_cases]
    rcases h0 : env.dlOk 0 <;> rcases h1 : env.dlOk 1 <;> rcases h2 : env.dlOk 2 <;>
      simp <;> decide
  · rintro ⟨h0, h1, h2⟩
    have hok : (downloadFromCloudinary env.dlOk 3).ok = false := by
      rw [dl3_cases]; simp [h0, h1, h2]
    have herr : (downloadFromCloudinary env.dlOk 3).err = some (downloadFailureMsg 3) := by
      rw [dl3_cases]; simp [h0, h1, h2]
    rcases htr.2.2 hok with ⟨ha, hb⟩
    exact ⟨ha, by rw [hb, herr]⟩

/-- C6 witness: the download policy at the all-attempts-fail input. -/
theorem c6_download_policy_witness :
    (migrateFile envDlFail fileOne cfgGood false).1.status = .failed
  ∧ (migrateFile envDlFail fileOne cfgGood false).1.error = some (downloadFailureMsg 3)
  ∧ (migrateFile envDlFail fileOne cfgGood false).2.delays = [1000, 2000] := by
  have h := c6_download_policy envDlFail fileOne cfgGood (by decide) rfl
  refine ⟨(h.2.2.2.2.2 ⟨rfl, rfl, rfl⟩).1, (h.2.2.2.2.2 ⟨rfl, rfl, rfl⟩).2, ?_⟩
  rw [h.2.1]
  decide

/-- C7 counterexample: with a malformed destination endpoint and no custom
public domain, the run is not aborted at startup — it completes with exit code
0 and the record is downgraded to a per-record `failed` outcome. -/
theorem c7_counterexample :
    (runMain inpBadEndpoint).exitCode = 0
  ∧ (runMain inpBadEndpoint).memState.failed_files = [1]
  ∧ extractAccountId cfgBad.endpoint = .error "Invalid R2 endpoint format" := by
  exact ⟨by decide, by decide, rfl⟩

/-- C7 (amended): the uploader configuration is built from the environment
without any endpoint validation, so a malformed endpoint (with no custom
public domain) does not abort the migration at startup: the
`Invalid R2 endpoint format` error is raised only when a public URL is
derived, inside per-record processing, where it is caught and recorded as a
per-record `failed` outcome; the run still exits 0. -/
theorem c7_invalid_endpoint_downgraded (inp : RunInput)
    (hp : inp.cfg.publicUrl = none)
    (hs : accountIdScan inp.cfg.endpoint.data = none)
    (hd : inp.dryRun = false)
    (henv : ∀ f, ¬ (inp.env f).head = .err404 ∧ (inp.env f).existsRes = .ok true
              ∧ (inp.env f).beginOk = true ∧ (inp.env f).commitOk = true) :
    (runMain inp).exitCode = 0
  ∧ (∀ f, (processRecord (inp.env f) f inp.cfg false).1
        = { status := .failed, newUrl := none, reason := none
            error := some "Invalid R2 endpoint format" })
  ∧ (runMain inp).memState.failed_files
      = (loadStateOf inp).failed_files ++ (outstanding inp).map (fun f => f.id) := by
  have hrec : ∀ f, (processRecord (inp.env f) f inp.cfg false).1
      = { status := .failed, newUrl := none, reason := none
          error := some "Invalid R2 endpoint format" } := by
    intro f
    exact processRecord_invalid_endpoint (inp.env f) f inp.cfg hp hs
      (henv f).1 (henv f).2.1 (henv f).2.2.1 (henv f).2.2.2
  refine ⟨runMain_exitCode inp, hrec, ?_⟩
  have hall : (outstanding inp).filter (fun f => recordedOutcome inp f == .failed)
      = outstanding inp := by
    rw [List.filter_eq_self]
    intro f _
    have : recordedOutcome inp f = .failed := by
      rw [recordedOutcome, hd]
      rw [hrec f]
    simp [this]
  by_cases h : (outstanding inp).isEmpty = true
  · rw [runMain_empty inp h]
    have : outstanding inp = [] := List.isEmpty_iff.1 h
    simp [this, initialAcc]
  · have h' : (outstanding inp).isEmpty = false := by simpa using h
    rw [runMain_nonempty inp h']
    show (finalAcc inp).st.failed_files = _
    rw [finalAcc, foldl_failed_files, hall]
    rfl

/-- C7 witness: the amended downgrade behaviour at the malformed-endpoint
input. -/
theorem c7_invalid_endpoint_downgraded_witness :
    (runMain inpBadEndpoint).exitCode = 0
  ∧ (runMain inpBadEndpoint).memState.failed_files
      = (loadStateOf inpBadEndpoint).failed_files
        ++ (outstanding inpBadEndpoint).map (fun f => f.id) := by
  have henv : ∀ f : FileRec, ¬ (inpBadEndpoint.env f).head = .err404
      ∧ (inpBadEndpoint.env f).existsRes = .ok true
      ∧ (inpBadEndpoint.env f).beginOk = true
      ∧ (inpBadEndpoint.env f).commitOk = true :=
    fun f => And.intro (fun hcontra => nomatch hcontra) ⟨rfl, rfl, rfl⟩
  have h := c7_invalid_endpoint_downgraded inpBadEndpoint rfl (by decide) rfl henv
  exact ⟨h.1, h.2.2⟩

/-- C8 counterexample: restoring a PostgreSQL backup over a live database
performs no file copy at all — the previous live content (`LIVEDB`) is
preserved nowhere, so no pre-restore safety copy is made on this backend. -/
theorem c8_counterexample :
    restorePostgreSQL { files := [("backup-x.sql", "dump")] } "backup-x.sql" "LIVEDB"
      = .ok ({ files := [("backup-x.sql", "dump")] }, "dump", [])
  ∧ ∀ e ∈ ([("backup-x.sql", "dump")] : List (String × String)), ¬ e.2 = "LIVEDB" := by
  exact ⟨rfl, by decide⟩

/-- C8 (amended): only the embedded-file (SQLite) restore makes a pre-restore
safety copy — when the live database file exists it is copied to
`dbPath + '.pre-restore'` before the backup is copied over it; the
client/server (PostgreSQL) restore pipes the dump into the live database with
no safety copy of any kind. -/
theorem c8_pre_restore_copy :
    (∀ (fs : FS) (backupPath dbPath : String),
       fs.existsFile backupPath = true → fs.existsFile dbPath = true →
       ¬ backupPath = dbPath ++ ".pre-restore" →
       ∃ fs', restoreSQLite fs backupPath dbPath
                = .ok (fs', [(dbPath, dbPath ++ ".pre-restore"), (backupPath, dbPath)])
         ∧ fs'.read (dbPath ++ ".pre-restore") = fs.read dbPath
         ∧ fs'.read dbPath = fs.read backupPath)
  ∧ (∀ (fs : FS) (backupPath live : String),
       fs.existsFile backupPath = true →
       restorePostgreSQL fs backupPath live
         = .ok (fs, (fs.read backupPath).getD "", [])) := by
  constructor
  · intro fs backupPath dbPath hb hd hne
    rcases FS.read_isSome_of_exists fs backupPath hb with ⟨cb, hcb⟩
    rcases FS.read_isSome_of_exists fs dbPath hd with ⟨cd, hcd⟩
    have hneq : ¬ dbPath ++ ".pre-restore" = dbPath := by
      intro hq
      have hlen := congrArg String.length hq
      rw [String.length_append,
        show (".pre-restore" : String).length = 12 from rfl] at hlen
      omega
    have hres : restoreSQLite fs backupPath dbPath
        = .ok ((fs.write (dbPath ++ ".pre-restore") ((fs.read dbPath).getD "")).write dbPath
                 (((fs.write (dbPath ++ ".pre-restore")
                      ((fs.read dbPath).getD "")).read backupPath).getD ""),
               [(dbPath, dbPath ++ ".pre-restore"), (backupPath, dbPath)]) := by
      simp [restoreSQLite, hb, hd]
    refine ⟨_, hres, ?_, ?_⟩
    · rw [FS.read_write_ne _ _ _ _ hneq, FS.read_write_self, hcd]
      rfl
    · rw [FS.read_write_self, FS.read_write_ne _ _ _ _ hne, hcb]
      rfl
  · intro fs backupPath live hb
    simp [restorePostgreSQL, hb]

/-- C8 witness: the amended restore behaviour at a concrete two-file system. -/
theorem c8_pre_restore_copy_witness :
    ∃ fs', restoreSQLite { files := [("backup-x", "dump"), (".tmp/data.db", "LIVE")] }
             "backup-x" ".tmp/data.db"
             = .ok (fs', [(".tmp/data.db", ".tmp/data.db" ++ ".pre-restore"),
                          ("backup-x", ".tmp/data.db")])
      ∧ fs'.read (".tmp/data.db" ++ ".pre-restore") = some "LIVE"
      ∧ fs'.read ".tmp/data.db" = some "dump" := by
  rcases c8_pre_restore_copy.1 { files := [("backup-x", "dump"), (".tmp/data.db", "LIVE")] }
      "backup-x" ".tmp/data.db" (by decide) (by decide) (by decide) with ⟨fs', h1, h2, h3⟩
  exact ⟨fs', h1, by rw [h2]; decide, by rw [h3]; decide⟩

/-- C9 counterexample: `listBackups` over the four artifacts of one backup
invocation groups only the database snapshot and the JSON export; the CSV
mapping table and the report are not grouped at all, because their names do
not contain `backup-` immediately followed by the timestamp token. -/
theorem c9_counterexample :
    listBackups dmNone backupDirListing
      = [{ timestamp := "2025-12-23-10-00-00"
           files := ["data.db.backup-2025-12-23-10-00-00-000Z",
                     "cloudinary-backup-2025-12-23-10-00-00-000Z.json"] }] := by
  decide

/-- C9 (amended): `listBackups` groups exactly the files whose name contains
`backup-` immediately followed by a `\d{4}-\d{2}-\d{2}-\d{2}-\d{2}-\d{2}`
token, keyed by that token — every listed file carries its group's token, and
every matching file is listed under its token; names of the shape
`migration-mapping-<t>` (the CSV mapping) and `backup-report-<t>` (the report)
never match, for any suffix `t` free of the letter `b`.  The groups are then
passed through the date-difference comparator sort, which permutes but never
adds or drops groups (parsing these non-ISO tokens as dates is
implementation-defined, so the model leaves the parse — and hence the final
order — as a parameter). -/
theorem c9_grouping (dm : String → Option Int) (files : List String) :
    (∀ g ∈ listBackups dm files, ∀ f ∈ g.files,
       f ∈ files ∧ findBackupToken f.data = some g.timestamp.data)
  ∧ (∀ f ∈ files, ∀ t, findBackupToken f.data = some t →
       ∃ g ∈ listBackups dm files, g.timestamp = String.mk t ∧ f ∈ g.files)
  ∧ (∀ s : String, (∀ c ∈ s.data, ¬ c = 'b') →
       findBackupToken ("migration-mapping-" ++ s).data = none
     ∧ findBackupToken ("backup-report-" ++ s).data = none) := by
  refine ⟨listBackups_sound dm files, ?_, ?_⟩
  · intro f hf t ht
    exact listBackups_complete dm files f hf t ht
  · intro s hs
    exact ⟨findBackupToken_mapping_csv s hs, findBackupToken_report s hs⟩

/-- C9 witness: the amended grouping behaviour at the four-artifact listing. -/
theorem c9_grouping_witness :
    findBackupToken ("migration-mapping-" ++ "2025-12-23-10-00-00-000Z.csv").data = none
  ∧ ∃ g ∈ listBackups dmNone backupDirListing,
      g.timestamp = String.mk "2025-12-23-10-00-00".data
      ∧ "data.db.backup-2025-12-23-10-00-00-000Z" ∈ g.files := by
  refine ⟨((c9_grouping dmNone backupDirListing).2.2 "2025-12-23-10-00-00-000Z.csv"
    (by decide)).1, ?_⟩
  exact (c9_grouping dmNone backupDirListing).2.1 "data.db.backup-2025-12-23-10-00-00-000Z"
    (by decide) "2025-12-23-10-00-00".data (by decide)

/-- C10: after a resumed run that handles at least one record on top of prior
accumulated outcomes, the persisted `statistics.processed` equals only the
number of records handled in that run (it is overwritten from a per-run
counter starting at zero), while success + failed + skipped accumulate across
runs; hence `processed = success + failed + skipped` fails whenever the prior
totals were nonzero. -/
theorem c10_processed_counter (inp : RunInput)
    (hne : (outstanding inp).isEmpty = false)
    (hprior : 0 < (loadStateOf inp).statistics.success
                + (loadStateOf inp).statistics.failed
                + (loadStateOf inp).statistics.skipped) :
    ∃ s, (runMain inp).stateFileAfter = some s
      ∧ s.statistics.processed = (outstanding inp).length
      ∧ s.statistics.success + s.statistics.failed + s.statistics.skipped
          = (loadStateOf inp).statistics.success + (loadStateOf inp).statistics.failed
            + (loadStateOf inp).statistics.skipped + (outstanding inp).length
      ∧ ¬ s.statistics.processed
          = s.statistics.success + s.statistics.failed + s.statistics.skipped := by
  rw [runMain_nonempty inp hne]
  have hnil : ¬ outstanding inp = [] := by
    intro hq
    rw [hq] at hne
    simp at hne
  have hstats : (finalStateOf inp).statistics = (finalAcc inp).st.statistics := rfl
  have hproc : (finalAcc inp).st.statistics.processed = 0 + (outstanding inp).length := by
    have := foldl_processed_stat inp (outstanding inp) (initialAcc inp) hnil
    rw [finalAcc, this]
    rfl
  have hsucc : (finalAcc inp).st.statistics.success
      = (loadStateOf inp).statistics.success
        + ((outstanding inp).filter (fun f => recordedOutcome inp f == .success)).length := by
    rw [finalAcc, foldl_success_count]
    rfl
  have hfail : (finalAcc inp).st.statistics.failed
      = (loadStateOf inp).statistics.failed
        + ((outstanding inp).filter (fun f => recordedOutcome inp f == .failed)).length := by
    rw [finalAcc, foldl_failed_count]
    rfl
  have hskip : (finalAcc inp).st.statistics.skipped
      = (loadStateOf inp).statistics.skipped
        + ((outstanding inp).filter (fun f => recordedOutcome inp f == .skipped)).length := by
    rw [finalAcc, foldl_skipped_count]
    rfl
  have hpart := filter_outcome_partition inp (outstanding inp)
  refine ⟨finalStateOf inp, rfl, ?_, ?_, ?_⟩ <;>
    · rw [hstats]
      omega

/-- C10 witness: the per-run processed counter at the resumed one-record
input. -/
theorem c10_processed_counter_witness :
    ∃ s, (runMain inpResumed).stateFileAfter = some s
      ∧ s.statistics.processed = (outstanding inpResumed).length
      ∧ ¬ s.statistics.processed
          = s.statistics.success + s.statistics.failed + s.statistics.skipped := by
  rcases c10_processed_counter inpResumed (by decide) (by decide) with ⟨s, h1, h2, _, h4⟩
  exact ⟨s, h1, h2, h4⟩

end R2Mig
